import Mathlib

/-!
Shallow embedding of the gcd-rs GCD firmware-container codec.

Bytes are modelled as natural numbers (values below 256 on any real
stream), byte streams as lists, machine integers as naturals with an
explicit reduction modulo the word size wherever the Rust code wraps,
and fallible operations as `Except String`.

Sources embedded: src/lib.rs (record headers), src/record/*.rs (record
codecs), src/parser.rs (grammar state machine, checksum accumulation,
firmware reassembly), src/composer.rs (writer).
-/

namespace Gcd

/-- Endianness, a construction-time parameter of the parser and composer
(`byteorder::ByteOrder`; `GcdDefaultEndian = LE`). -/
inductive Endian where
  | le
  | be
  deriving DecidableEq, Repr

/-- Read a 16-bit value from two stream bytes (`B::read_u16`). -/
def readU16 (e : Endian) (b0 b1 : Nat) : Nat :=
  match e with
  | .le => b0 + 256 * b1
  | .be => 256 * b0 + b1

/-- Read an unsigned integer from a whole byte list
(`B::read_u16 / read_u32 / read_u64 / read_uint128` on a slice of the
corresponding length). -/
def readUintE (e : Endian) (bs : List Nat) : Nat :=
  match e with
  | .le => bs.foldr (fun b acc => b + 256 * acc) 0
  | .be => bs.foldl (fun acc b => 256 * acc + b) 0

/-- Write a 16-bit value as two stream bytes (`B::write_u16`). -/
def writeU16 (e : Endian) (v : Nat) : List Nat :=
  match e with
  | .le => [v % 256, v / 256 % 256]
  | .be => [v / 256 % 256, v % 256]

/-- Fold a byte list into a running wrapping-u8 sum starting from `s`
(`ReadCheckSum::read` / `WriteCheckSum::write` in parser.rs and
composer.rs: `self.sum = self.sum.wrapping_add(*byte)`). -/
def accumSum (s : Nat) (bs : List Nat) : Nat :=
  bs.foldl (fun acc b => (acc + b) % 256) s

/-- Known record headers (`RecordHeader` in src/lib.rs). -/
inductive RecordHeader where
  | Checksum
  | Filler (len : Nat)
  | MainHeader (len : Nat)
  | Text (len : Nat)
  | DescriptorType (len : Nat)
  | DescriptorData (len : Nat)
  | End
  | Unknown (id : Nat) (len : Nat)
  deriving DecidableEq, Repr

namespace RecordHeader

/-- `RecordHeader::id` (src/lib.rs): the wire id of each header kind.
`checksum::ID = 1`, `filler::ID = 2`, `main::ID = 3`, `text::ID = 5`,
`descriptor_type::ID = 6`, `descriptor_data::ID = 7`, End is `0xffff`. -/
def id : RecordHeader → Nat
  | .Unknown i _ => i
  | .Checksum => 1
  | .Filler _ => 2
  | .MainHeader _ => 3
  | .Text _ => 5
  | .DescriptorType _ => 6
  | .DescriptorData _ => 7
  | .End => 0xffff

/-- `RecordHeader::len` (src/lib.rs): the payload length of each header. -/
def len : RecordHeader → Nat
  | .Unknown _ l => l
  | .Checksum => 1
  | .Filler l => l
  | .MainHeader l => l
  | .Text l => l
  | .DescriptorType l => l
  | .DescriptorData l => l
  | .End => 0

/-- `RecordHeader::from_value` (src/lib.rs): classify an (id, len) pair,
mirroring the Rust match arms in order, including the `len == 1` guard on
the Checksum arm and the `len == 0` guard on the End arm. -/
def from_value (i l : Nat) : RecordHeader :=
  if i = 1 ∧ l = 1 then .Checksum
  else if i = 2 then .Filler l
  else if i = 3 then .MainHeader l
  else if i = 5 then .Text l
  else if i = 6 then .DescriptorType l
  else if i = 7 then .DescriptorData l
  else if i = 0xffff ∧ l = 0 then .End
  else .Unknown i l

end RecordHeader

/-- `ChecksumRecord` (src/record/checksum.rs). -/
inductive ChecksumRecord where
  | Simple
  deriving DecidableEq, Repr

/-- `ChecksumRecord::new` (src/record/checksum.rs): the payload must be
exactly one byte and the accumulated sum (which already includes that
byte) must be zero. -/
def ChecksumRecord.new (data : List Nat) (checksum : Nat) :
    Except String ChecksumRecord :=
  if data.length ≠ 1 ∨ checksum ≠ 0 then
    .error "Invalid Checksum Value"
  else
    .ok .Simple

/-- `ChecksumRecord::record_to_raw` (src/record/checksum.rs): write the
4-byte Checksum header, fold the header bytes into the accumulated sum
`checksum`, and emit the wrapping negation of the result as the one-byte
payload. -/
def ChecksumRecord.record_to_raw (e : Endian) (checksum : Nat) : List Nat :=
  let hdr := writeU16 e 1 ++ writeU16 e 1
  hdr ++ [(256 - accumSum checksum hdr % 256) % 256]

/-- `FillerRecord` (src/record/filler.rs). -/
inductive FillerRecord where
  | Zeros (len : Nat)
  deriving DecidableEq, Repr

/-- `FillerRecord::new` (src/record/filler.rs): every payload byte must
be zero. -/
def FillerRecord.new (data : List Nat) : Except String FillerRecord :=
  if data.any (fun x => x ≠ 0) then
    .error "Invalid Filler Record value"
  else
    .ok (.Zeros data.length)

/-- `DEFAULT_HWID` (src/record/main.rs). -/
def DEFAULT_HWID : Nat := 0x0037

/-- `DEFAULT_PART_NUMBER` (src/record/main.rs). -/
def DEFAULT_PART_NUMBER : Nat := 0x41140D4504135CD410

/-- `MainRecord` (src/record/main.rs). -/
inductive MainRecord where
  | DefaultPartNumber
  | DefaultHWID
  deriving DecidableEq, Repr

/-- `MainRecord::new` (src/record/main.rs): a 9-byte payload must read as
the known part-number constant, a 2-byte payload must read as the known
hardware-id constant, and any other length is an error. Returns the
remaining stream on success. -/
def MainRecord.new (e : Endian) (lenght : Nat) (file : List Nat) :
    Except String (MainRecord × List Nat) :=
  match lenght with
  | 9 =>
    if file.length < 9 then .error "read_exact failed"
    else if readUintE e (file.take 9) = DEFAULT_PART_NUMBER then
      .ok (.DefaultPartNumber, file.drop 9)
    else .error "Invalid/Unknown MainRecord PartNumber"
  | 2 =>
    if file.length < 2 then .error "read_exact failed"
    else if readUintE e (file.take 2) ≠ DEFAULT_HWID then
      .error "Invalid/Unknown MainRecord HWID"
    else .ok (.DefaultHWID, file.drop 2)
  | _ => .error "Invalid/Unknown Main Record"

/-- Continuation byte test of the UTF-8 validator (`core::str::from_utf8`
used by `TextRecord::new`). -/
def isCont (b : Nat) : Bool :=
  decide (0x80 ≤ b ∧ b ≤ 0xBF)

/-- First-continuation range for a three-byte leader: 0xE0 requires
0xA0..0xBF, 0xED requires 0x80..0x9F (no surrogates), the rest require a
plain continuation byte. -/
def validCont3 (b c1 : Nat) : Bool :=
  if b = 0xE0 then decide (0xA0 ≤ c1 ∧ c1 ≤ 0xBF)
  else if b = 0xED then decide (0x80 ≤ c1 ∧ c1 ≤ 0x9F)
  else isCont c1

/-- First-continuation range for a four-byte leader: 0xF0 requires
0x90..0xBF (no overlongs), 0xF4 requires 0x80..0x8F (at most 0x10FFFF),
the rest require a plain continuation byte. -/
def validCont4 (b c1 : Nat) : Bool :=
  if b = 0xF0 then decide (0x90 ≤ c1 ∧ c1 ≤ 0xBF)
  else if b = 0xF4 then decide (0x80 ≤ c1 ∧ c1 ≤ 0x8F)
  else isCont c1

/-- UTF-8 validity of a byte list, as decided by `core::str::from_utf8`
in `TextRecord::new` (src/record/text.rs). -/
def utf8Valid : List Nat → Bool
  | [] => true
  | b :: rest =>
    if b < 0x80 then utf8Valid rest
    else if b < 0xC2 then false
    else if b ≤ 0xDF then
      match rest with
      | c1 :: rest2 => isCont c1 && utf8Valid rest2
      | [] => false
    else if b ≤ 0xEF then
      match rest with
      | c1 :: c2 :: rest2 => validCont3 b c1 && isCont c2 && utf8Valid rest2
      | _ => false
    else if b ≤ 0xF4 then
      match rest with
      | c1 :: c2 :: c3 :: rest2 =>
        validCont4 b c1 && isCont c2 && isCont c3 && utf8Valid rest2
      | _ => false
    else false

/-- `TextRecord` (src/record/text.rs). `Simple` holds the bytes of the
validated UTF-8 string (`String::from_utf8_unchecked` keeps the bytes
unchanged), `Blob` holds the raw bytes. -/
inductive TextRecord where
  | Simple (data : List Nat)
  | Blob (data : List Nat)
  deriving DecidableEq, Repr

namespace TextRecord

/-- `TextRecord::new` (src/record/text.rs): read `lenght` bytes, yield
`Simple` when they are valid UTF-8 and `Blob` otherwise. Returns the
remaining stream. -/
def new (lenght : Nat) (file : List Nat) :
    Except String (TextRecord × List Nat) :=
  if file.length < lenght then .error "read_exact failed"
  else
    let data := file.take lenght
    if utf8Valid data then .ok (.Simple data, file.drop lenght)
    else .ok (.Blob data, file.drop lenght)

/-- `TextRecord::value` (src/record/text.rs): the underlying bytes. -/
def value : TextRecord → List Nat
  | .Simple d => d
  | .Blob d => d

/-- `TextRecord::len` (src/record/text.rs): `data.len() as u16`. -/
def len (t : TextRecord) : Nat :=
  t.value.length % 65536

/-- `TextRecord::record_to_raw` (src/record/text.rs): the Text header
followed by the underlying bytes, verbatim. -/
def record_to_raw (e : Endian) (t : TextRecord) : List Nat :=
  writeU16 e 5 ++ writeU16 e t.len ++ t.value

end TextRecord

/-- `DescriptorType` (src/record/descriptor/descriptor_type.rs): one
declared slot of a DescriptorType record. -/
inductive DescriptorType where
  | U8 (id : Nat)
  | U16 (id : Nat)
  | U32 (id : Nat)
  | U64 (id : Nat)
  | Other (id : Nat) (lenght : Nat)
  | End
  deriving DecidableEq, Repr

namespace DescriptorType

/-- `DescriptorType::data_len` (src/record/descriptor/descriptor_type.rs):
the number of payload bytes the slot implies in the paired
DescriptorData record. -/
def data_len : DescriptorType → Nat
  | .U8 _ => 1
  | .U16 _ => 2
  | .U32 _ => 4
  | .U64 _ => 8
  | .Other _ l => l
  | .End => 0

end DescriptorType

/-- Decode the slot list of a DescriptorType record payload: the loop of
`DescriptorTypeRecord::new` over `DescriptorType::from_raw`
(src/record/descriptor.rs and descriptor_type.rs). Each 16-bit value
holds the kind in its top 4 bits and the id in its low 12 bits; kind 4
consumes a following 16-bit explicit length. -/
def parseDTList (e : Endian) : List Nat → Except String (List DescriptorType)
  | [] => .ok []
  | [_] => .error "Descriptor Type is bigger than the data available"
  | b0 :: b1 :: rest =>
    let value := readU16 e b0 b1
    let kind := value / 4096
    let i := value % 4096
    if kind = 0 then
      (parseDTList e rest).map (fun ds => .U8 i :: ds)
    else if kind = 1 then
      (parseDTList e rest).map (fun ds => .U16 i :: ds)
    else if kind = 2 then
      (parseDTList e rest).map (fun ds => .U32 i :: ds)
    else if kind = 3 then
      (parseDTList e rest).map (fun ds => .U64 i :: ds)
    else if kind = 4 then
      match rest with
      | l0 :: l1 :: rest2 =>
        (parseDTList e rest2).map
          (fun ds => .Other i (readU16 e l0 l1) :: ds)
      | _ => .error "Descriptor Type Other is missing the lenght"
    else if kind = 5 then
      (parseDTList e rest).map (fun ds => .End :: ds)
    else .error "Descriptor Type has unknown value"

/-- `DescriptorTypeRecord::new` (src/record/descriptor.rs): the length
must be even; read that many bytes and decode slots until the payload is
fully consumed. Returns the remaining stream. -/
def DescriptorTypeRecord.new (e : Endian) (lenght : Nat) (file : List Nat) :
    Except String (List DescriptorType × List Nat) :=
  if lenght % 2 ≠ 0 then
    .error "Record Descriptor type size need to be multiple of 2"
  else if file.length < lenght then .error "read_exact failed"
  else
    match parseDTList e (file.take lenght) with
    | .ok ds => .ok (ds, file.drop lenght)
    | .error msg => .error msg

/-- `DescriptorData` (src/record/descriptor/descriptor_data.rs): one
decoded slot value. -/
inductive DescriptorData where
  | U8 (id : Nat) (data : Nat)
  | U16 (id : Nat) (data : Nat)
  | U32 (id : Nat) (data : Nat)
  | U64 (id : Nat) (data : Nat)
  | Other (id : Nat) (data : List Nat)
  | End
  deriving DecidableEq, Repr

/-- `DescriptorData::from_raw` (src/record/descriptor/descriptor_data.rs):
check that the slot fits into the remaining payload, then read its value
under the slot kind, returning the remaining payload bytes. -/
def DescriptorData.from_raw (e : Endian) (dt : DescriptorType)
    (data : List Nat) : Except String (List Nat × DescriptorData) :=
  let l := dt.data_len
  if data.length < l then
    .error "Descriptor Data is bigger than the data available"
  else
    let d : DescriptorData :=
      match dt with
      | .U8 i => .U8 i (readUintE e (data.take 1))
      | .U16 i => .U16 i (readUintE e (data.take 2))
      | .U32 i => .U32 i (readUintE e (data.take 4))
      | .U64 i => .U64 i (readUintE e (data.take 8))
      | .Other i _ => .Other i (data.take l)
      | .End => .End
    .ok (data.drop l, d)

/-- Sum of declared slot lengths as the wrapping u16 sum computed by
`DescriptorTypeRecord::data_len` (src/record/descriptor.rs):
`descs.iter().map(data_len).sum::<u16>()`. -/
def dtRecordDataLen (dts : List DescriptorType) : Nat :=
  (dts.map DescriptorType.data_len).sum % 65536

/-- Mathematical (unwrapped) sum of the declared slot lengths. -/
def sumDataLen (dts : List DescriptorType) : Nat :=
  (dts.map DescriptorType.data_len).sum

/-- The per-slot fold of `DescriptorRecord::new` (src/record/descriptor.rs):
decode each declared slot in order against the remaining payload. -/
def decodeSlots (e : Endian) :
    List DescriptorType → List Nat →
    Except String (List Nat × List DescriptorData)
  | [], data => .ok (data, [])
  | dt :: rest, data =>
    match DescriptorData.from_raw e dt data with
    | .error msg => .error msg
    | .ok (next, d) =>
      match decodeSlots e rest next with
      | .error msg => .error msg
      | .ok (next2, ds) => .ok (next2, d :: ds)

/-- `DescriptorRecord::new` (src/record/descriptor.rs): the declared
payload length must equal the type record's summed data length, then the
payload is read and decoded slot by slot in the declared order; leftover
payload after the fold is a programming-error panic (modelled as an
error). Returns the remaining stream. -/
def DescriptorRecord.new (e : Endian) (dts : List DescriptorType)
    (lenght : Nat) (file : List Nat) :
    Except String (List DescriptorData × List Nat) :=
  if dtRecordDataLen dts ≠ lenght then
    .error "Record Descriptor data is Invalid/Unexpected"
  else if file.length < lenght then .error "read_exact failed"
  else
    match decodeSlots e dts (file.take lenght) with
    | .error msg => .error msg
    | .ok (rest, ds) =>
      if rest.length ≠ 0 then
        .error "Programing Error on Descriptor Data parsing"
      else .ok (ds, file.drop lenght)

/-- `FirmwareRecord` (src/record/firmware.rs). -/
inductive FirmwareRecord where
  | EmptyChunk (id : Nat)
  | Chunk (id : Nat) (data : List Nat)
  deriving DecidableEq, Repr

/-- `FirmwareRecord::new` (src/record/firmware.rs): empty data becomes an
explicit empty-chunk variant. -/
def FirmwareRecord.new (data : List Nat) (i : Nat) : FirmwareRecord :=
  if data.length = 0 then .EmptyChunk i else .Chunk i data

/-- `DescriptorDecoded` (src/record/descriptor/descriptor_data.rs):
advisory meanings of well-known (kind, id) slot pairs. Versions are kept
as their raw 16-bit values (`Version::new_raw`). -/
inductive DescriptorDecoded where
  | End
  | HWID (v : Nat)
  | XorKey (v : Nat)
  | FirmwareId (v : Nat)
  | FirmwareLen (v : Nat)
  | FirmwareAddr (v : Nat)
  | VersionSw (v : Nat)
  | VersionRemote (v : Nat)
  | VersionId12 (v : Nat)
  | VersionId20 (v : Nat)
  | Firmware2000P1Len (v : Nat)
  | Firmware2000P2Len (v : Nat)
  | Firmware2000P3Len (v : Nat)
  deriving DecidableEq, Repr

/-- `DescriptorDecoded::decode` (src/record/descriptor/descriptor_data.rs):
the fixed lookup of well-known (kind, id) pairs; every unrecognized pair
decodes to `none` rather than an error. -/
def DescriptorData.decode : DescriptorData → Option DescriptorDecoded
  | .End => some .End
  | .U8 10 d => some (.XorKey d)
  | .U16 9 d => some (.HWID d)
  | .U16 10 d => some (.FirmwareId d)
  | .U16 12 d => some (.VersionId12 d)
  | .U16 13 d => some (.VersionSw d)
  | .U16 20 d => some (.VersionId20 d)
  | .U16 21 d => some (.VersionRemote d)
  | .U32 21 d => some (.FirmwareLen d)
  | .U32 23 d => some (.Firmware2000P1Len d)
  | .U32 24 d => some (.Firmware2000P2Len d)
  | .U32 25 d => some (.Firmware2000P3Len d)
  | .U32 26 d => some (.FirmwareAddr d)
  | _ => none

/-- Parser grammar state (`ParseState` in src/parser.rs). -/
inductive ParseState where
  | TextGlobal
  | Main
  | DescriptorType
  | DescriptorData
  | FirmwareData
  | End
  deriving DecidableEq, Repr

/-- Firmware reassembly state (`struct FirmwareData` in src/parser.rs):
expected id, xor key (0 means none), declared total length, and the
length still to be consumed. -/
structure FirmwareData where
  id : Nat
  xor_key : Nat
  lenght : Nat
  lenght_left : Nat
  deriving DecidableEq, Repr

/-- Parser state (`struct Parser` in src/parser.rs), with the checksum
accumulator's running sum (`ReadCheckSum::sum`) carried explicitly; the
byte stream is threaded separately. -/
structure Parser where
  state : ParseState
  descriptor_type : List DescriptorType
  firmware : FirmwareData
  sum : Nat
  deriving DecidableEq, Repr

/-- Option accumulator of the extraction loop in
`Parser::parse_descriptor_data` (src/parser.rs). -/
structure ExtractSt where
  firmware_id : Option Nat
  firmware_lenght : Option Nat
  xor_key : Option Nat
  deriving DecidableEq, Repr

/-- The extraction loop of `Parser::parse_descriptor_data`
(src/parser.rs): scan the decoded slots in order; FirmwareId, XorKey and
any of FirmwareLen / Firmware2000P1Len / P2 / P3 overwrite the
corresponding option (last seen wins). -/
def extractLoop : List DescriptorData → ExtractSt → ExtractSt
  | [], s => s
  | d :: rest, s =>
    let s2 :=
      match d.decode with
      | some (.FirmwareId x) => { s with firmware_id := some x }
      | some (.FirmwareLen x) => { s with firmware_lenght := some x }
      | some (.XorKey x) => { s with xor_key := some x }
      | some (.Firmware2000P1Len x) => { s with firmware_lenght := some x }
      | some (.Firmware2000P2Len x) => { s with firmware_lenght := some x }
      | some (.Firmware2000P3Len x) => { s with firmware_lenght := some x }
      | _ => s
    extractLoop rest s2

/-- `Parser::parse_descriptor_data` (src/parser.rs): decode the data
record against the stored descriptor type, then extract firmware id
(required), firmware length (required) and xor key (defaulting to 0),
and reset the reassembly state with `lenght_left := lenght`. -/
def Parser.parse_descriptor_data (e : Endian) (p : Parser) (lenght : Nat)
    (file : List Nat) :
    Except String (List DescriptorData × Parser × List Nat) :=
  match DescriptorRecord.new e p.descriptor_type lenght file with
  | .error msg => .error msg
  | .ok (ds, rest) =>
    let ex := extractLoop ds ⟨none, none, none⟩
    match ex.firmware_id with
    | none => .error "Firmware Id not found"
    | some fid =>
      match ex.firmware_lenght with
      | none => .error "Firmware Lenght not found"
      | some flen =>
        .ok (ds,
          { p with
            firmware :=
              { id := fid
                xor_key := ex.xor_key.getD 0
                lenght := flen
                lenght_left := flen }
            sum := accumSum p.sum (file.take lenght) },
          rest)

/-- `Parser::parse_firmware_data` (src/parser.rs): the chunk id must
equal the active firmware id, the chunk must fit in the remaining
length, which is then decremented; the payload is read, XORed bytewise
with the key when the key is nonzero, and additionally XORed with 0x76
when the active firmware id is the reserved font id 0x05A5. -/
def Parser.parse_firmware_data (fw : FirmwareData) (record_id record_len : Nat)
    (file : List Nat) :
    Except String (FirmwareRecord × FirmwareData × List Nat) :=
  if record_id ≠ fw.id then
    .error "Firmware id expected"
  else if fw.lenght_left < record_len then
    .error "Firmware Chunk is bigger than expected"
  else
    let fw2 := { fw with lenght_left := fw.lenght_left - record_len }
    if file.length < record_len then .error "read_exact failed"
    else
      let buf := file.take record_len
      let buf1 :=
        if fw2.xor_key ≠ 0 then buf.map (fun x => x ^^^ fw2.xor_key)
        else buf
      let buf2 :=
        if fw2.id = 0x05A5 then buf1.map (fun x => x ^^^ 0x76)
        else buf1
      .ok (FirmwareRecord.new buf2 record_id, fw2, file.drop record_len)

/-- `Parser::check_firmware_end` (src/parser.rs): closing a firmware
block demands that the remaining length is exactly zero. -/
def Parser.check_firmware_end (fw : FirmwareData) : Except String Unit :=
  if fw.lenght_left ≠ 0 then
    .error "Firmware Chunk too small"
  else .ok ()

/-- A decoded record yielded by one `read_record` call (`Record` in
src/lib.rs). -/
inductive Record where
  | Checksum (r : ChecksumRecord)
  | Filler (r : FillerRecord)
  | MainHeader (r : MainRecord)
  | Text (r : TextRecord)
  | Descriptor (r : List DescriptorData)
  | FirmwareData (r : FirmwareRecord)
  | End
  deriving DecidableEq, Repr

/-- `Parser::read_record` (src/parser.rs): read a 4-byte header, then
dispatch on (state, header kind) exactly as the Rust match does,
looping (with fuel) whenever a DescriptorType record is consumed without
emitting a record. In the FirmwareData-state DescriptorType arm the
parsed type record is dropped on the floor, exactly as in the source
(`self.parse_descriptor_type(len)?;` without an assignment). -/
def Parser.read_record (e : Endian) :
    Nat → Parser → List Nat →
    Except String (Record × Parser × List Nat)
  | fuel, p, file =>
    if p.state = .End then
      .error "Unable to read after End Record"
    else
      match fuel with
      | 0 => .error "fuel exhausted"
      | fuel + 1 =>
        match file with
        | b0 :: b1 :: b2 :: b3 :: rest =>
          let sum4 := accumSum p.sum [b0, b1, b2, b3]
          let hdr := RecordHeader.from_value (readU16 e b0 b1)
            (readU16 e b2 b3)
          match p.state, hdr with
          | _, .Checksum =>
            match rest with
            | c :: rest2 =>
              let sum5 := (sum4 + c) % 256
              match ChecksumRecord.new [c] sum5 with
              | .error msg => .error msg
              | .ok r => .ok (.Checksum r, { p with sum := sum5 }, rest2)
            | [] => .error "read_exact failed"
          | _, .Filler l =>
            if rest.length < l then .error "read_exact failed"
            else
              match FillerRecord.new (rest.take l) with
              | .error msg => .error msg
              | .ok r =>
                .ok (.Filler r,
                  { p with sum := accumSum sum4 (rest.take l) }, rest.drop l)
          | .TextGlobal, .Text l =>
            match TextRecord.new l rest with
            | .error msg => .error msg
            | .ok (t, rest2) =>
              .ok (.Text t,
                { p with sum := accumSum sum4 (rest.take l) }, rest2)
          | .TextGlobal, .MainHeader l =>
            match MainRecord.new e l rest with
            | .error msg => .error msg
            | .ok (m, rest2) =>
              .ok (.MainHeader m,
                { p with
                  state := .Main
                  sum := accumSum sum4 (rest.take l) }, rest2)
          | .Main, .DescriptorType l =>
            match DescriptorTypeRecord.new e l rest with
            | .error msg => .error msg
            | .ok (dts, rest2) =>
              Parser.read_record e fuel
                { p with
                  state := .DescriptorType
                  descriptor_type := dts
                  sum := accumSum sum4 (rest.take l) } rest2
          | .Main, .Text l =>
            match TextRecord.new l rest with
            | .error msg => .error msg
            | .ok (t, rest2) =>
              .ok (.Text t,
                { p with sum := accumSum sum4 (rest.take l) }, rest2)
          | .DescriptorType, .DescriptorData l =>
            match Parser.parse_descriptor_data e
                { p with state := .DescriptorData, sum := sum4 } l rest with
            | .error msg => .error msg
            | .ok (ds, p2, rest2) => .ok (.Descriptor ds, p2, rest2)
          | .DescriptorData, .DescriptorType l =>
            match Parser.check_firmware_end p.firmware with
            | .error msg => .error msg
            | .ok _ =>
              match DescriptorTypeRecord.new e l rest with
              | .error msg => .error msg
              | .ok (dts, rest2) =>
                Parser.read_record e fuel
                  { p with
                    state := .DescriptorType
                    descriptor_type := dts
                    sum := accumSum sum4 (rest.take l) } rest2
          | .DescriptorData, .Unknown i l =>
            match Parser.parse_firmware_data p.firmware i l rest with
            | .error msg => .error msg
            | .ok (r, fw2, rest2) =>
              .ok (.FirmwareData r,
                { p with
                  state := .FirmwareData
                  firmware := fw2
                  sum := accumSum sum4 (rest.take l) }, rest2)
          | .DescriptorData, .Text l =>
            match TextRecord.new l rest with
            | .error msg => .error msg
            | .ok (t, rest2) =>
              .ok (.Text t,
                { p with sum := accumSum sum4 (rest.take l) }, rest2)
          | .DescriptorData, .End =>
            match Parser.check_firmware_end p.firmware with
            | .error msg => .error msg
            | .ok _ =>
              .ok (.End, { p with state := .End, sum := sum4 }, rest)
          | .FirmwareData, .Text l =>
            match TextRecord.new l rest with
            | .error msg => .error msg
            | .ok (t, rest2) =>
              .ok (.Text t,
                { p with sum := accumSum sum4 (rest.take l) }, rest2)
          | .FirmwareData, .Unknown i l =>
            match Parser.parse_firmware_data p.firmware i l rest with
            | .error msg => .error msg
            | .ok (r, fw2, rest2) =>
              .ok (.FirmwareData r,
                { p with
                  firmware := fw2
                  sum := accumSum sum4 (rest.take l) }, rest2)
          | .FirmwareData, .End =>
            match Parser.check_firmware_end p.firmware with
            | .error msg => .error msg
            | .ok _ =>
              .ok (.End, { p with state := .End, sum := sum4 }, rest)
          | .FirmwareData, .DescriptorType l =>
            match Parser.check_firmware_end p.firmware with
            | .error msg => .error msg
            | .ok _ =>
              match DescriptorTypeRecord.new e l rest with
              | .error msg => .error msg
              | .ok (_, rest2) =>
                Parser.read_record e fuel
                  { p with
                    state := .DescriptorType
                    sum := accumSum sum4 (rest.take l) } rest2
          | _, _ => .error "State record received"
        | _ => .error "read_exact failed"

/-- `Parser::new` (src/parser.rs): read the 8-byte file signature, check
the ASCII magic and the 16-bit format version 100, and return the
initial parser state together with the remaining stream. -/
def Parser.new (e : Endian) (file : List Nat) :
    Except String (Parser × List Nat) :=
  match file with
  | b0 :: b1 :: b2 :: b3 :: b4 :: b5 :: b6 :: b7 :: rest =>
    if [b0, b1, b2, b3, b4, b5] ≠ [71, 65, 82, 77, 73, 78] then
      .error "Invalid/Unknown Header Signature"
    else if readU16 e b6 b7 ≠ 100 then
      .error "Invalid/Unknown Header Version"
    else
      .ok ({ state := .TextGlobal
             descriptor_type := []
             firmware := ⟨0, 0, 0, 0⟩
             sum := accumSum 0 [b0, b1, b2, b3, b4, b5, b6, b7] }, rest)
  | _ => .error "read_exact failed"

/-- Run `read_record` repeatedly, collecting the yielded records and
stopping at the first error. -/
def runRecords (e : Endian) (fuel : Nat) :
    Nat → Parser → List Nat → Except String (List Record)
  | 0, _, _ => .ok []
  | n + 1, p, file =>
    match Parser.read_record e fuel p file with
    | .error msg => .error msg
    | .ok (r, p2, file2) =>
      match runRecords e fuel n p2 file2 with
      | .error msg => .error msg
      | .ok rs => .ok (r :: rs)

/-- Open a stream with `Parser::new` and read `n` records from it. -/
def runParser (e : Endian) (file : List Nat) (n : Nat) :
    Except String (List Record) :=
  match Parser.new e file with
  | .error msg => .error msg
  | .ok (p, rest) => runRecords e (file.length + 1) n p rest

/-- `Composer::new` (src/composer.rs): the bytes written when a stream is
opened — the ASCII signature GARMIN followed by the 16-bit format
version 100. -/
def composerSignature (e : Endian) : List Nat :=
  [71, 65, 82, 77, 73, 78] ++ writeU16 e 100

/-- `Composer::write_end` (src/composer.rs): the End record header. -/
def composerEndBytes (e : Endian) : List Nat :=
  writeU16 e 0xffff ++ writeU16 e 0

/-- The bytes produced by `Composer::new` followed by
`write_record(Text(t))` and `write_record(End)` (src/composer.rs,
src/record/text.rs). -/
def composeTextEnd (e : Endian) (t : TextRecord) : List Nat :=
  composerSignature e ++ TextRecord.record_to_raw e t ++ composerEndBytes e

/-- The wrapping u8 sum stays below 256 whenever it starts below 256. -/
theorem accumSum_lt (bs : List Nat) (s : Nat) (h : s < 256) :
    accumSum s bs < 256 := by
  induction bs generalizing s with
  | nil => simpa [accumSum] using h
  | cons b rest ih =>
    simpa [accumSum] using ih ((s + b) % 256) (Nat.mod_lt _ (by norm_num))

/-- The wrapping u8 sum over a concatenation is the composition of the
sums. -/
theorem accumSum_append (s : Nat) (xs ys : List Nat) :
    accumSum s (xs ++ ys) = accumSum (accumSum s xs) ys := by
  simp [accumSum, List.foldl_append]

/-- The wrapping u8 sum over a single byte. -/
theorem accumSum_singleton (s x : Nat) : accumSum s [x] = (s + x) % 256 :=
  rfl

/-- Claim C10: for every (id, len) pair, `RecordHeader::from_value`
produces a header whose `id()` and `len()` accessors return exactly that
pair; in particular the Checksum id 1 with a length other than 1, and
the End id 0xFFFF with a nonzero length, are classified as `Unknown`
rather than rejected. -/
theorem c10_header_from_value (i l : Nat) :
    ((RecordHeader.from_value i l).id = i ∧
      (RecordHeader.from_value i l).len = l) ∧
    (l ≠ 1 → RecordHeader.from_value 1 l = .Unknown 1 l) ∧
    (l ≠ 0 → RecordHeader.from_value 0xffff l = .Unknown 0xffff l) := by
  refine ⟨?_, ?_, ?_⟩
  · unfold RecordHeader.from_value
    split_ifs with h1 h2 h3 h4 h5 h6 h7 <;>
      simp_all [RecordHeader.id, RecordHeader.len]
  · intro h
    simp [RecordHeader.from_value, h]
  · intro h
    simp [RecordHeader.from_value, h]

/-- Witness for C10 at the concrete reserved-id inputs (1, 5) and
(0xFFFF, 3). -/
theorem c10_header_from_value_witness :
    RecordHeader.from_value 1 5 = .Unknown 1 5 ∧
    RecordHeader.from_value 0xffff 3 = .Unknown 0xffff 3 :=
  ⟨(c10_header_from_value 1 5).2.1 (by decide),
   (c10_header_from_value 0xffff 3).2.2 (by decide)⟩

/-- Claim C2: firmware chunk accounting — a chunk with a mismatched id
fails, a chunk longer than the remaining length fails, otherwise the
remaining length is decremented by the chunk length; and closing the
firmware block (`check_firmware_end`, called on a new DescriptorType and
on End) succeeds exactly when the remaining length is zero. -/
theorem c2_firmware_reassembly_accounting (fw : FirmwareData)
    (rid rlen : Nat) (file : List Nat) :
    (rid ≠ fw.id →
      ∀ r, Parser.parse_firmware_data fw rid rlen file ≠ .ok r) ∧
    (fw.lenght_left < rlen →
      ∀ r, Parser.parse_firmware_data fw rid rlen file ≠ .ok r) ∧
    (rid = fw.id → rlen ≤ fw.lenght_left → rlen ≤ file.length →
      (Parser.parse_firmware_data fw rid rlen file).map
          (fun x => (x.2.1, x.2.2)) =
        .ok ({ fw with lenght_left := fw.lenght_left - rlen },
          file.drop rlen)) ∧
    (Parser.check_firmware_end fw = .ok () ↔ fw.lenght_left = 0) := by
  refine ⟨?_, ?_, ?_, ?_⟩
  · intro h r
    simp [Parser.parse_firmware_data, h]
  · intro h r
    by_cases hid : rid = fw.id
    · simp [Parser.parse_firmware_data, hid, h]
    · simp [Parser.parse_firmware_data, hid]
  · intro hid hlen hfile
    simp [Parser.parse_firmware_data, hid, Nat.not_lt.mpr hlen,
      Nat.not_lt.mpr hfile, Except.map]
  · constructor
    · intro h
      by_contra hne
      simp [Parser.check_firmware_end, hne] at h
    · intro h
      simp [Parser.check_firmware_end, h]

/-- Witness for C2 at a concrete chunk: id 7, remaining 10, chunk
length 4 over a 5-byte stream. -/
theorem c2_firmware_reassembly_accounting_witness :
    ((Parser.parse_firmware_data ⟨7, 0, 10, 10⟩ 7 4 [1, 2, 3, 4, 5]).map
        (fun x => (x.2.1, x.2.2)) = .ok (⟨7, 0, 10, 6⟩, [5])) ∧
    (∀ r, Parser.parse_firmware_data ⟨7, 0, 10, 10⟩ 8 4 [1, 2, 3, 4, 5] ≠
      .ok r) :=
  ⟨(c2_firmware_reassembly_accounting ⟨7, 0, 10, 10⟩ 7 4
      [1, 2, 3, 4, 5]).2.2.1 rfl (by decide) (by decide),
   (c2_firmware_reassembly_accounting ⟨7, 0, 10, 10⟩ 8 4
      [1, 2, 3, 4, 5]).1 (by decide)⟩

/-- Claim C5: for a firmware chunk whose active firmware id is the
reserved font-resource id 0x05A5, every payload byte comes out XORed
with the descriptor key and then with the constant 0x76; with key 0 the
key pass vanishes and each byte comes out as `b ^^^ 0x76`. -/
theorem c5_font_xor_passes (fw : FirmwareData) (rid rlen : Nat)
    (file : List Nat) (hfont : fw.id = 0x05A5) (hid : rid = fw.id)
    (hlen : rlen ≤ fw.lenght_left) (hfile : rlen ≤ file.length) :
    Parser.parse_firmware_data fw rid rlen file =
      .ok (FirmwareRecord.new
        ((file.take rlen).map fun b => b ^^^ fw.xor_key ^^^ 0x76)
        rid, { fw with lenght_left := fw.lenght_left - rlen },
        file.drop rlen) ∧
    (fw.xor_key = 0 →
      Parser.parse_firmware_data fw rid rlen file =
        .ok (FirmwareRecord.new
          ((file.take rlen).map fun b => b ^^^ 0x76) rid,
          { fw with lenght_left := fw.lenght_left - rlen },
          file.drop rlen)) := by
  constructor
  · by_cases hk : fw.xor_key = 0
    · simp [Parser.parse_firmware_data, hid, Nat.not_lt.mpr hlen,
        Nat.not_lt.mpr hfile, hk, hfont, Nat.xor_zero]
    · simp [Parser.parse_firmware_data, hid, Nat.not_lt.mpr hlen,
        Nat.not_lt.mpr hfile, hk, hfont, List.map_map, Function.comp_def]
  · intro hk
    simp [Parser.parse_firmware_data, hid, Nat.not_lt.mpr hlen,
      Nat.not_lt.mpr hfile, hk, hfont, Nat.xor_zero]

/-- Witness for C5 at the concrete font-id firmware state with key 3
over the chunk [1, 2]. -/
theorem c5_font_xor_passes_witness :
    Parser.parse_firmware_data ⟨0x05A5, 3, 5, 5⟩ 0x05A5 2 [1, 2, 9] =
      .ok (FirmwareRecord.new
        ([1, 2].map fun b => b ^^^ 3 ^^^ 0x76) 0x05A5,
        ⟨0x05A5, 3, 5, 3⟩, [9]) :=
  (c5_font_xor_passes ⟨0x05A5, 3, 5, 5⟩ 0x05A5 2 [1, 2, 9] rfl rfl
    (by decide) (by decide)).1

/-- Claim C9: once the parser state is End, `read_record` fails with the
read-after-End error on every input, for any fuel, without producing a
new state — so the End record is observed at most once per stream. -/
theorem c9_end_state_terminal (e : Endian) (fuel : Nat) (p : Parser)
    (file : List Nat) (h : p.state = .End) :
    Parser.read_record e fuel p file =
      .error "Unable to read after End Record" := by
  rw [Parser.read_record.eq_def]
  simp [h]

/-- Witness for C9 at a concrete End-state parser. -/
theorem c9_end_state_terminal_witness :
    Parser.read_record .le 5 ⟨.End, [], ⟨0, 0, 0, 0⟩, 0⟩ [1, 2, 3, 4] =
      .error "Unable to read after End Record" :=
  c9_end_state_terminal .le 5 _ _ rfl

/-- Claim C4: with accumulated bytes B and the checksum byte chosen as
the wrapping negation of their sum, the accumulated sum over B followed
by that byte is 0 and Checksum-record validation succeeds; any other
byte below 256 in its place fails validation. Dually, the bytes the
composer emits for a Checksum record drive the accumulated sum,
including the record's own header and payload, to exactly 0. -/
theorem c4_checksum_protocol (B : List Nat) (k : Nat) (e : Endian)
    (s : Nat) (hk : k < 256) (hs : s < 256) :
    (accumSum 0 (B ++ [(256 - accumSum 0 B) % 256]) = 0) ∧
    (ChecksumRecord.new [(256 - accumSum 0 B) % 256]
        (accumSum 0 (B ++ [(256 - accumSum 0 B) % 256])) = .ok .Simple) ∧
    (k ≠ (256 - accumSum 0 B) % 256 →
      ∀ r, ChecksumRecord.new [k] (accumSum 0 (B ++ [k])) ≠ .ok r) ∧
    (accumSum s (ChecksumRecord.record_to_raw e s) = 0) := by
  have hB : accumSum 0 B < 256 := accumSum_lt B 0 (by norm_num)
  have hzero : accumSum 0 (B ++ [(256 - accumSum 0 B) % 256]) = 0 := by
    rw [accumSum_append, accumSum_singleton]
    omega
  refine ⟨hzero, ?_, ?_, ?_⟩
  · rw [hzero]
    simp [ChecksumRecord.new]
  · intro hne r
    have hsum : accumSum 0 (B ++ [k]) ≠ 0 := by
      rw [accumSum_append, accumSum_singleton]
      omega
    simp [ChecksumRecord.new, hsum]
  · have ht : accumSum s (writeU16 e 1 ++ writeU16 e 1) < 256 :=
      accumSum_lt _ _ hs
    simp only [ChecksumRecord.record_to_raw]
    rw [accumSum_append, accumSum_singleton]
    omega

/-- Witness for C4 at B = [1, 2], the wrong byte 7, and composer sum 3. -/
theorem c4_checksum_protocol_witness :
    (accumSum 0 ([1, 2] ++ [(256 - accumSum 0 [1, 2]) % 256]) = 0) ∧
    (∀ r, ChecksumRecord.new [7] (accumSum 0 ([1, 2] ++ [7])) ≠ .ok r) ∧
    (accumSum 3 (ChecksumRecord.record_to_raw .le 3) = 0) :=
  ⟨(c4_checksum_protocol [1, 2] 7 .le 3 (by decide) (by decide)).1,
   (c4_checksum_protocol [1, 2] 7 .le 3 (by decide) (by decide)).2.2.1
     (by decide),
   (c4_checksum_protocol [1, 2] 7 .le 3 (by decide) (by decide)).2.2.2⟩

/-- Claim C7: MainHeader decode succeeds exactly when the payload is 9
bytes reading as the known part-number constant or 2 bytes reading as
the known hardware-id constant; every other length or value errors. -/
theorem c7_main_header_two_known_values (e : Endian) (lenght : Nat)
    (file : List Nat) :
    (∃ r, MainRecord.new e lenght file = .ok r) ↔
      ((lenght = 9 ∧ 9 ≤ file.length ∧
          readUintE e (file.take 9) = DEFAULT_PART_NUMBER) ∨
       (lenght = 2 ∧ 2 ≤ file.length ∧
          readUintE e (file.take 2) = DEFAULT_HWID)) := by
  constructor
  · rintro ⟨r, hr⟩
    unfold MainRecord.new at hr
    split at hr
    · split_ifs at hr with h1 h2
      exact Or.inl ⟨rfl, Nat.not_lt.mp h1, h2⟩
    · split_ifs at hr with h1 h2
      exact Or.inr ⟨rfl, Nat.not_lt.mp h1, not_ne_iff.mp h2⟩
    · exact absurd hr (by simp)
  · rintro (⟨hl, hfile, hval⟩ | ⟨hl, hfile, hval⟩) <;> subst hl
    · exact ⟨(.DefaultPartNumber, file.drop 9),
        by simp [MainRecord.new, Nat.not_lt.mpr hfile, hval]⟩
    · exact ⟨(.DefaultHWID, file.drop 2),
        by simp [MainRecord.new, Nat.not_lt.mpr hfile, hval]⟩

/-- Claim C8: Text decode never fails when the payload is available — it
yields the text variant exactly when the payload is valid UTF-8 and the
blob variant otherwise, in both cases holding the payload bytes, and
re-encoding writes the header followed by exactly the original payload
bytes. -/
theorem c8_text_lossless (e : Endian) (lenght : Nat) (file : List Nat)
    (h : lenght ≤ file.length) (h2 : lenght < 65536) :
    ∃ t, TextRecord.new lenght file = .ok (t, file.drop lenght) ∧
      t.value = file.take lenght ∧
      (t = .Simple (file.take lenght) ↔
        utf8Valid (file.take lenght) = true) ∧
      TextRecord.record_to_raw e t =
        writeU16 e 5 ++ writeU16 e lenght ++ file.take lenght := by
  have hlen : (file.take lenght).length = lenght := by
    simp [List.length_take, Nat.min_eq_left h]
  by_cases hv : utf8Valid (file.take lenght) = true
  · refine ⟨.Simple (file.take lenght), ?_, rfl, by simp [hv], ?_⟩
    · simp [TextRecord.new, Nat.not_lt.mpr h, hv]
    · simp [TextRecord.record_to_raw, TextRecord.len, TextRecord.value,
        hlen, Nat.mod_eq_of_lt h2]
  · refine ⟨.Blob (file.take lenght), ?_, rfl, by simp [hv], ?_⟩
    · simp [TextRecord.new, Nat.not_lt.mpr h, hv]
    · simp [TextRecord.record_to_raw, TextRecord.len, TextRecord.value,
        hlen, Nat.mod_eq_of_lt h2]

/-- Witness for C8 at a 3-byte valid-UTF-8 payload taken off a 4-byte
stream. -/
theorem c8_text_lossless_witness :
    ∃ t, TextRecord.new 3 [83, 97, 109, 255] = .ok (t, [255]) ∧
      t.value = [83, 97, 109] ∧
      (t = .Simple [83, 97, 109] ↔ utf8Valid [83, 97, 109] = true) ∧
      TextRecord.record_to_raw .le t =
        writeU16 .le 5 ++ writeU16 .le 3 ++ [83, 97, 109] :=
  c8_text_lossless .le 3 [83, 97, 109, 255] (by decide) (by decide)

/-- The value a single slot reads off the front of the remaining
payload — the success value of `DescriptorData::from_raw`. -/
def slotHead (e : Endian) (dt : DescriptorType) (data : List Nat) :
    DescriptorData :=
  match dt with
  | .U8 i => .U8 i (readUintE e (data.take 1))
  | .U16 i => .U16 i (readUintE e (data.take 2))
  | .U32 i => .U32 i (readUintE e (data.take 4))
  | .U64 i => .U64 i (readUintE e (data.take 8))
  | .Other i _ => .Other i (data.take dt.data_len)
  | .End => .End

/-- Modelled from the spec wording of the descriptor-pairing property,
for comparison with the source decode: split the payload by the slot
lengths implied by the Type sequence, in the order the Type record
declared them, and read each segment under its slot kind. -/
def specSlotDecode (e : Endian) :
    List DescriptorType → List Nat → List DescriptorData
  | [], _ => []
  | dt :: rest, data =>
    slotHead e dt data :: specSlotDecode e rest (data.drop dt.data_len)

/-- `DescriptorData::from_raw` succeeds on a sufficient payload, drops
the slot's length and yields the slot's value. -/
theorem from_raw_ok (e : Endian) (dt : DescriptorType) (data : List Nat)
    (h : dt.data_len ≤ data.length) :
    DescriptorData.from_raw e dt data =
      .ok (data.drop dt.data_len, slotHead e dt data) := by
  unfold DescriptorData.from_raw
  rw [if_neg (Nat.not_lt.mpr h)]
  cases dt <;> rfl

/-- When the payload is long enough, the per-slot fold of
`DescriptorRecord::new` consumes exactly the summed slot lengths and
yields the per-slot values in declared order. -/
theorem decodeSlots_ok (e : Endian) (dts : List DescriptorType)
    (data : List Nat) (h : sumDataLen dts ≤ data.length) :
    decodeSlots e dts data =
      .ok (data.drop (sumDataLen dts), specSlotDecode e dts data) := by
  induction dts generalizing data with
  | nil => simp [decodeSlots, sumDataLen, specSlotDecode]
  | cons dt rest ih =>
    have hsum : sumDataLen (dt :: rest) =
        dt.data_len + sumDataLen rest := by
      simp [sumDataLen]
    have hdt : dt.data_len ≤ data.length := by omega
    have hrest : sumDataLen rest ≤ (data.drop dt.data_len).length := by
      simp only [List.length_drop]
      omega
    simp only [decodeSlots, from_raw_ok e dt data hdt,
      ih (data.drop dt.data_len) hrest, specSlotDecode, hsum,
      List.drop_drop]

/-- When the payload is shorter than the summed slot lengths, the
per-slot fold fails. -/
theorem decodeSlots_short (e : Endian) (dts : List DescriptorType)
    (data : List Nat) (h : data.length < sumDataLen dts) :
    ∀ r, decodeSlots e dts data ≠ .ok r := by
  induction dts generalizing data with
  | nil =>
    simp [sumDataLen] at h
  | cons dt rest ih =>
    intro r
    have hsum : sumDataLen (dt :: rest) =
        dt.data_len + sumDataLen rest := by
      simp [sumDataLen]
    rw [decodeSlots]
    by_cases hdt : data.length < dt.data_len
    · simp [DescriptorData.from_raw, hdt]
    · have hrest : (data.drop dt.data_len).length < sumDataLen rest := by
        simp only [List.length_drop]
        omega
      rw [from_raw_ok e dt data (Nat.not_lt.mp hdt)]
      have hne := ih (data.drop dt.data_len) hrest
      cases hds : decodeSlots e rest (data.drop dt.data_len) with
      | error msg => simp [hds]
      | ok v => exact absurd hds (hne v)

/-- Claim C3: decoding a DescriptorData payload D against a
DescriptorType sequence T succeeds exactly when the length of D equals
the (mathematical) sum of the slot lengths T declares — the mismatch
check fires before any value is read — and on success the values are the
per-slot reads of D in T's declared order. -/
theorem c3_descriptor_pairing (e : Endian) (T : List DescriptorType)
    (D : List Nat) (hD : D.length < 65536) :
    ((∃ r, DescriptorRecord.new e T D.length D = .ok r) ↔
      D.length = sumDataLen T) ∧
    (D.length = sumDataLen T →
      DescriptorRecord.new e T D.length D =
        .ok (specSlotDecode e T D, [])) := by
  have hback : D.length = sumDataLen T →
      DescriptorRecord.new e T D.length D =
        .ok (specSlotDecode e T D, []) := by
    intro h
    have hwrap : dtRecordDataLen T = D.length := by
      unfold dtRecordDataLen
      unfold sumDataLen at h
      omega
    unfold DescriptorRecord.new
    rw [if_neg (by omega), if_neg (by omega)]
    rw [List.take_length]
    rw [decodeSlots_ok e T D (le_of_eq h.symm)]
    rw [← h, List.drop_length]
    simp
  refine ⟨⟨?_, fun h => ⟨_, hback h⟩⟩, hback⟩
  rintro ⟨r, hr⟩
  unfold DescriptorRecord.new at hr
  split_ifs at hr with h1 h2
  rw [List.take_length] at hr
  by_cases hlt : D.length < sumDataLen T
  · cases hds : decodeSlots e T D with
    | error msg => rw [hds] at hr; exact absurd hr (by simp)
    | ok v => exact absurd hds (decodeSlots_short e T D hlt v)
  · have hle : sumDataLen T ≤ D.length := Nat.not_lt.mp hlt
    rw [decodeSlots_ok e T D hle] at hr
    by_cases hrem : (D.drop (sumDataLen T)).length = 0
    · simp only [List.length_drop] at hrem
      omega
    · have hrem2 : D.length - sumDataLen T ≠ 0 := by
        simpa [List.length_drop] using hrem
      simp [List.length_drop, hrem2] at hr

/-- Witness for C3 at T = [U8 1] and D = [5]. -/
theorem c3_descriptor_pairing_witness :
    DescriptorRecord.new .le [.U8 1] 1 [5] =
      .ok ([DescriptorData.U8 1 5], []) :=
  (c3_descriptor_pairing .le [.U8 1] [5] (by decide)).2 (by decide)

/-- A little-endian GCD file whose second firmware block declares a new
DescriptorType (U16 10, U32 21, U8 1 — summed data length 7) after a
FirmwareData chunk, followed by a 7-byte DescriptorData payload that
matches the new type exactly: signature, MainHeader (HWID), first
DescriptorType (U16 10, U32 21 — summed data length 6), first
DescriptorData (firmware id 256, firmware length 0), one empty firmware
chunk with id 256, the new DescriptorType, and the new DescriptorData. -/
def c1File : List Nat :=
  [71, 65, 82, 77, 73, 78, 100, 0,
   3, 0, 2, 0, 55, 0,
   6, 0, 4, 0, 10, 16, 21, 32,
   7, 0, 6, 0, 0, 1, 0, 0, 0, 0,
   0, 1, 0, 0,
   6, 0, 6, 0, 10, 16, 21, 32, 1, 0,
   7, 0, 7, 0, 0, 1, 0, 0, 0, 0, 5]

/-- Claim C1: on `c1File` the first three records parse, but the fourth
read fails with the descriptor-data length mismatch even though the
7-byte payload exactly matches the newly-read DescriptorType sequence
(third conjunct): in the FirmwareData-state DescriptorType transition
the code parses the new type record and discards it instead of storing
it, so the following DescriptorData is checked against the stale
sequence (summed length 6) from the previous firmware block. -/
theorem c1_stale_descriptor_type_after_firmware :
    runParser .le c1File 3 =
      .ok [.MainHeader .DefaultHWID,
        .Descriptor [.U16 10 256, .U32 21 0],
        .FirmwareData (.EmptyChunk 256)] ∧
    runParser .le c1File 4 =
      .error "Record Descriptor data is Invalid/Unexpected" ∧
    DescriptorRecord.new .le [.U16 10, .U32 21, .U8 1] 7
        [0, 1, 0, 0, 0, 0, 5] =
      .ok ([.U16 10 256, .U32 21 0, .U8 1 5], []) :=
  ⟨rfl, rfl, rfl⟩

/-- The 11 ASCII bytes of the string Sample File. -/
def sampleFileBytes : List Nat :=
  [83, 97, 109, 112, 108, 101, 32, 70, 105, 108, 101]

/-- Counterexample to claim C6 as stated: composing Text(Sample File)
then End on an empty little-endian stream does not produce a Text header
with length 0x000C — the string has 11 bytes, not 12. -/
theorem c6_compose_text_end_counterexample :
    composeTextEnd .le (TextRecord.Simple sampleFileBytes) ≠
      [71, 65, 82, 77, 73, 78] ++ [0x64, 0x00] ++
        [0x05, 0x00, 0x0C, 0x00] ++ sampleFileBytes ++
        [0xFF, 0xFF, 0x00, 0x00] := by
  decide

/-- Claim C6 amended: composing Text(Sample File) then End on an empty
little-endian stream produces exactly the signature GARMIN, the version
100 little-endian, header id 0x0005 with length 0x000B, the 11 ASCII
bytes of Sample File, and the End header 0xFFFF with length 0x0000. -/
theorem c6_compose_text_end_amended :
    composeTextEnd .le (TextRecord.Simple sampleFileBytes) =
      [71, 65, 82, 77, 73, 78] ++ [0x64, 0x00] ++
        [0x05, 0x00, 0x0B, 0x00] ++ sampleFileBytes ++
        [0xFF, 0xFF, 0x00, 0x00] := by
  decide

end Gcd
